import Mathlib

/-!
Verification of the financial-command-center core (src/app.py) against its
natural-language specification.

Shallow embedding conventions:
* Python floats are modelled as exact real numbers (`ℝ`); the static account
  balances are rationals (`ℚ`).
* `round(x, 2)` is modelled as `round2` using Mathlib's `round` (round half
  towards positive infinity); Python's round-half-to-even differs only on
  exact half-cent boundaries, which none of the concrete inputs below touch.
* The seeded NumPy generator is modelled as an abstract deterministic draw
  stream `D : ℕ → ℕ → ℝ` mapping a seed and a linear position to a standard
  normal draw; `rng.normal(r_m, vol_m, size=(sims, n))` filled row-major then
  places `r_m + vol_m * D seed (i * n + j)` at cell `(i, j)`.
-/

/-- Monthly rate `r = (1 + annual_return / 100) ** (1 / 12) - 1` — the geometric monthly
rate computed at the top of both `compute_projection` and `estimate_months`. -/
noncomputable def monthlyRate (annual_return : ℝ) : ℝ :=
  (1 + annual_return / 100) ^ ((1 : ℝ) / 12) - 1

/-- Python's `round(x, 2)`: round to 2 decimal places. -/
noncomputable def round2 (x : ℝ) : ℝ :=
  ((round (x * 100) : ℤ) : ℝ) / 100

/-- Value after `t` iterations of the loop body of `compute_projection`:
`vals.append(round(vals[-1] * (1 + r) + monthly, 2))`. -/
noncomputable def projVals (initial monthly annual_return : ℝ) : ℕ → ℝ
  | 0 => initial
  | t + 1 => round2 (projVals initial monthly annual_return t * (1 + monthlyRate annual_return) + monthly)

/-- Function `compute_projection(initial, monthly, annual_return, years)` from
src/app.py: the list `vals` of length `years * 12 + 1`. -/
noncomputable def compute_projection (initial monthly annual_return : ℝ) (years : ℕ) : List ℝ :=
  (List.range (years * 12 + 1)).map (projVals initial monthly annual_return)

/-- The `while v < target and m < 1200:` loop of `estimate_months`, with the
remaining iteration budget `1200 - m` made explicit as fuel. -/
noncomputable def estLoop (target monthly r : ℝ) : ℝ → ℕ → ℕ → ℕ
  | _, m, 0 => m
  | v, m, fuel + 1 =>
      if v < target then estLoop target monthly r (v * (1 + r) + monthly) (m + 1) fuel else m

/-- Function `estimate_months(initial, target, monthly, annual_return)` from
src/app.py. -/
noncomputable def estimate_months (initial target monthly annual_return : ℝ) : ℕ :=
  estLoop target monthly (monthlyRate annual_return) initial 0 1200

/-- The value held by `v` in `estimate_months` after `t` loop iterations:
`v = v * (1 + r) + monthly`, with no rounding. -/
noncomputable def estVal (initial monthly annual_return : ℝ) : ℕ → ℝ
  | 0 => initial
  | t + 1 => estVal initial monthly annual_return t * (1 + monthlyRate annual_return) + monthly

/-- Cell `(i, j)` of `returns = rng.normal(r_m, vol_m, size=(sims, n))` in
`run_monte_carlo`, where `r_m = (annual_return / 100) / 12` and
`vol_m = (annual_vol / 100) / np.sqrt(12)`, as an affine transform of the
standard-normal stream `D` of the seed. -/
noncomputable def mcReturns (D : ℕ → ℕ → ℝ) (seed : ℕ) (annual_return annual_vol : ℝ)
    (n i j : ℕ) : ℝ :=
  annual_return / 100 / 12 + annual_vol / 100 / Real.sqrt 12 * D seed (i * n + j)

/-- Entry `scenarios[i, t]` of `run_monte_carlo`:
`scenarios[:, 0] = initial` and
`scenarios[:, m + 1] = np.maximum(scenarios[:, m] * (1 + returns[:, m]) + monthly, 0)`. -/
noncomputable def mcValue (initial monthly : ℝ) (ret : ℕ → ℕ → ℝ) (i : ℕ) : ℕ → ℝ
  | 0 => initial
  | t + 1 => max (mcValue initial monthly ret i t * (1 + ret i t) + monthly) 0

/-- The full `scenarios` matrix of `run_monte_carlo`, row `i` being path `i`
over months `0..years*12`. -/
noncomputable def mcScenarios (D : ℕ → ℕ → ℝ) (initial monthly annual_return annual_vol : ℝ)
    (years sims seed : ℕ) : List (List ℝ) :=
  (List.range sims).map fun i =>
    (List.range (years * 12 + 1)).map
      (mcValue initial monthly (mcReturns D seed annual_return annual_vol (years * 12)) i)

/-- Result of `run_monte_carlo`: `return scenarios, scenarios[:, -1]`. -/
structure MCResult where
  scenarios : List (List ℝ)
  finals : List ℝ

/-- Function `run_monte_carlo(initial, monthly, annual_return, annual_vol, years, sims, seed)`
from src/app.py; `finals` takes the last entry of each row (`scenarios[:, -1]`). -/
noncomputable def run_monte_carlo (D : ℕ → ℕ → ℝ) (initial monthly annual_return annual_vol : ℝ)
    (years sims seed : ℕ) : MCResult :=
  { scenarios := mcScenarios D initial monthly annual_return annual_vol years sims seed
    finals := (mcScenarios D initial monthly annual_return annual_vol years sims seed).map
      fun row => row.getD (row.length - 1) 0 }

/-- One entry of the `patrimonio` dictionary. -/
structure Account where
  name : String
  saldo : ℚ
  tipo : String

/-- The static `patrimonio` dictionary of src/app.py (the Degiro balance is
the static placeholder later overwritten by the resolved ETF total). -/
def patrimonio : List Account :=
  [⟨"Postepay Evolution", 1000, "Liquidità"⟩,
   ⟨"Buddybank", 400, "Liquidità"⟩,
   ⟨"Revolut", 3000, "Liquidità"⟩,
   ⟨"Isybank", 700, "Liquidità"⟩,
   ⟨"Contanti", 2500, "Liquidità"⟩,
   ⟨"Degiro", 0, "Investimento"⟩,
   ⟨"Scalable Capital", 50, "Investimento"⟩,
   ⟨"Bondora", 4400, "Investimento"⟩,
   ⟨"Buono Fruttifero", 14000, "Risparmio"⟩,
   ⟨"TFR Lavoro", 2000, "TFR"⟩]

/-- Aggregate `net_worth = sum(v["saldo"] for v in patrimonio.values())`. -/
def net_worth (accounts : List Account) : ℚ :=
  (accounts.map Account.saldo).sum

/-- Category sum `sum(v["saldo"] for v in patrimonio.values() if v["tipo"] == t)`. -/
def category_total (accounts : List Account) (t : String) : ℚ :=
  ((accounts.filter fun a => a.tipo = t).map Account.saldo).sum

/-- Total `liquidita` from src/app.py. -/
def liquidita (accounts : List Account) : ℚ := category_total accounts "Liquidità"

/-- Total `investimenti` from src/app.py. -/
def investimenti (accounts : List Account) : ℚ := category_total accounts "Investimento"

/-- Total `risparmio` from src/app.py. -/
def risparmio (accounts : List Account) : ℚ := category_total accounts "Risparmio"

/-- Total `tfr` from src/app.py. -/
def tfr (accounts : List Account) : ℚ := category_total accounts "TFR"

/-- The milestone progress percentage of the milestones loop:
`pct = min((net_worth / m["target"]) * 100, 100) if m["target"] > 0 else 0`. -/
noncomputable def milestone_pct (nw target : ℝ) : ℝ :=
  if 0 < target then min (nw / target * 100) 100 else 0

/-! ### Helper lemmas -/

lemma monthlyRate_zero : monthlyRate 0 = 0 := by
  unfold monthlyRate
  norm_num [Real.one_rpow]

lemma monthlyRate_nonneg {ar : ℝ} (h : 0 ≤ ar) : 0 ≤ monthlyRate ar := by
  unfold monthlyRate
  have h1 : (1 : ℝ) = (1 : ℝ) ^ ((1 : ℝ) / 12) := (Real.one_rpow _).symm
  have h2 : (1 : ℝ) ^ ((1 : ℝ) / 12) ≤ (1 + ar / 100) ^ ((1 : ℝ) / 12) :=
    Real.rpow_le_rpow (by norm_num) (by linarith) (by norm_num)
  linarith [h1 ▸ h2]

lemma round2_mono {x y : ℝ} (h : x ≤ y) : round2 x ≤ round2 y := by
  unfold round2
  have hf : round (x * 100) ≤ round (y * 100) := by
    rw [round_eq, round_eq]
    exact Int.floor_mono (by linarith)
  have : ((round (x * 100) : ℤ) : ℝ) ≤ ((round (y * 100) : ℤ) : ℝ) := by exact_mod_cast hf
  linarith

lemma round2_intCast_div (j : ℤ) : round2 ((j : ℝ) / 100) = (j : ℝ) / 100 := by
  unfold round2
  rw [show ((j : ℝ) / 100 * 100) = (j : ℝ) by field_simp, round_intCast]

lemma round2_zero : round2 0 = 0 := by
  unfold round2
  norm_num

lemma round2_concrete (x : ℝ) (k : ℤ) (h1 : (k : ℝ) ≤ x * 100 + 1 / 2)
    (h2 : x * 100 + 1 / 2 < (k : ℝ) + 1) : round2 x = (k : ℝ) / 100 := by
  unfold round2
  have hfl : ⌊x * 100 + 1 / 2⌋ = k := by
    rw [Int.floor_eq_iff]
    exact ⟨h1, by exact_mod_cast h2⟩
  rw [round_eq, hfl]

lemma estLoop_zero (target monthly r v : ℝ) (m : ℕ) : estLoop target monthly r v m 0 = m := rfl

lemma estLoop_succ (target monthly r v : ℝ) (m fuel : ℕ) :
    estLoop target monthly r v m (fuel + 1) =
      if v < target then estLoop target monthly r (v * (1 + r) + monthly) (m + 1) fuel else m := rfl

lemma estLoop_of_not_lt (target monthly r v : ℝ) (m fuel : ℕ) (h : ¬ v < target) :
    estLoop target monthly r v m fuel = m := by
  cases fuel with
  | zero => rfl
  | succ fuel => rw [estLoop_succ, if_neg h]

lemma estimate_months_eq_one (initial target monthly ar : ℝ) (h0 : initial < target)
    (h1 : ¬ initial * (1 + monthlyRate ar) + monthly < target) :
    estimate_months initial target monthly ar = 1 := by
  unfold estimate_months
  rw [show (1200 : ℕ) = 1199 + 1 by norm_num, estLoop_succ, if_pos h0,
    estLoop_of_not_lt _ _ _ _ _ _ h1]

lemma estVal_shift (initial monthly ar : ℝ) :
    ∀ t, estVal initial monthly ar (t + 1) =
      estVal (initial * (1 + monthlyRate ar) + monthly) monthly ar t := by
  intro t
  induction t with
  | zero => rfl
  | succ t ih =>
      show estVal initial monthly ar (t + 1) * (1 + monthlyRate ar) + monthly = _
      rw [ih]
      rfl

lemma estLoop_main (target monthly ar : ℝ) : ∀ (fuel : ℕ) (initial : ℝ) (m : ℕ),
    (∀ t, m + t < estLoop target monthly (monthlyRate ar) initial m fuel →
      estVal initial monthly ar t < target) ∧
    estLoop target monthly (monthlyRate ar) initial m fuel ≤ m + fuel ∧
    m ≤ estLoop target monthly (monthlyRate ar) initial m fuel ∧
    (estLoop target monthly (monthlyRate ar) initial m fuel < m + fuel →
      target ≤ estVal initial monthly ar
        (estLoop target monthly (monthlyRate ar) initial m fuel - m)) := by
  intro fuel
  induction fuel with
  | zero =>
      intro initial m
      rw [estLoop_zero]
      exact ⟨fun t ht => absurd ht (by omega), by omega, by omega, fun h => absurd h (by omega)⟩
  | succ fuel ih =>
      intro initial m
      rw [estLoop_succ]
      by_cases h : initial < target
      · rw [if_pos h]
        obtain ⟨ih1, ih2, ih3, ih4⟩ := ih (initial * (1 + monthlyRate ar) + monthly) (m + 1)
        refine ⟨?_, by omega, by omega, ?_⟩
        · intro t ht
          cases t with
          | zero => exact h
          | succ t =>
              rw [estVal_shift]
              exact ih1 t (by omega)
        · intro hlt
          have h4 := ih4 (by omega)
          have heq : estLoop target monthly (monthlyRate ar)
              (initial * (1 + monthlyRate ar) + monthly) (m + 1) fuel - (m + 1) + 1 =
              estLoop target monthly (monthlyRate ar)
                (initial * (1 + monthlyRate ar) + monthly) (m + 1) fuel - m := by omega
          rw [← heq, estVal_shift]
          exact h4
      · rw [if_neg h]
        refine ⟨fun t ht => absurd ht (by omega), by omega, by omega, fun _ => ?_⟩
        simpa using not_lt.1 h

/-- C1 (amended): the Milestone Estimator iterates the same monthly recurrence
as the Projection Engine but WITHOUT the per-step rounding to 2 decimals: the
intermediate value held after `t` steps is `estVal t` (the unrounded iterate),
every iterate strictly before the stopping month is below the target, the
stopping month is capped at 1200, and when the cap is not hit the unrounded
iterate at the stopping month has reached the target. -/
theorem c1_estimator_unrounded_recurrence (initial target monthly ar : ℝ) (t : ℕ)
    (ht : t < estimate_months initial target monthly ar) :
    estVal initial monthly ar t < target ∧
    estimate_months initial target monthly ar ≤ 1200 ∧
    (estimate_months initial target monthly ar < 1200 →
      target ≤ estVal initial monthly ar (estimate_months initial target monthly ar)) := by
  obtain ⟨h1, h2, _, h4⟩ := estLoop_main target monthly ar 1200 initial 0
  unfold estimate_months at ht ⊢
  refine ⟨h1 t (by omega), by omega, fun hlt => ?_⟩
  have := h4 (by omega)
  simpa using this

/-- Witness for C1's amended theorem at initial 0, target 1, monthly 1,
annual return 0 (the loop runs exactly one step). -/
theorem c1_witness :
    estVal 0 1 0 0 < 1 ∧ estimate_months 0 1 1 0 ≤ 1200 ∧
    (estimate_months 0 1 1 0 < 1200 → (1 : ℝ) ≤ estVal 0 1 0 (estimate_months 0 1 1 0)) :=
  c1_estimator_unrounded_recurrence 0 1 1 0 0 (by
    rw [estimate_months_eq_one 0 1 1 0 (by norm_num)
      (by rw [monthlyRate_zero]; norm_num)]
    norm_num)

/-- C1 counterexample: with initial 0.014, target 1, monthly contribution 1
and annual return 0, the estimator stops after month 1, but its intermediate
value after 1 step is 1.014 while element 1 of the projection series (which
rounds each step to 2 decimals) is 1.01. -/
theorem c1_counterexample :
    estimate_months (7 / 500) 1 1 0 = 1 ∧
    (compute_projection (7 / 500) 1 0 30)[1]? = some (101 / 100) ∧
    estVal (7 / 500) 1 0 1 = 507 / 500 ∧
    ((101 : ℝ) / 100) ≠ 507 / 500 := by
  refine ⟨?_, ?_, ?_, by norm_num⟩
  · exact estimate_months_eq_one _ _ _ _ (by norm_num) (by rw [monthlyRate_zero]; norm_num)
  · unfold compute_projection
    rw [List.getElem?_map, List.getElem?_range (by norm_num : 1 < 30 * 12 + 1)]
    show some (projVals (7 / 500) 1 0 1) = _
    have : projVals (7 / 500) 1 0 1 = round2 (7 / 500 * (1 + monthlyRate 0) + 1) := rfl
    rw [this, monthlyRate_zero,
      show (7 / 500 * (1 + 0) + 1 : ℝ) = 507 / 500 by norm_num,
      round2_concrete (507 / 500) 101 (by norm_num) (by norm_num)]
    norm_num
  · show (7 / 500 : ℝ) * (1 + monthlyRate 0) + 1 = 507 / 500
    rw [monthlyRate_zero]
    norm_num

/-- C8: `estimate_months` returns 0 immediately whenever `initial ≥ target`,
for every target, monthly contribution and annual return. -/
theorem c8_initial_ge_target (initial target monthly ar : ℝ) (h : target ≤ initial) :
    estimate_months initial target monthly ar = 0 :=
  estLoop_of_not_lt _ _ _ _ _ _ (not_lt.2 h)

/-- Witness for C8 at initial 5, target 3. -/
theorem c8_witness : estimate_months 5 3 2 1 = 0 :=
  c8_initial_ge_target 5 3 2 1 (by norm_num)

lemma projVals_grid_nonneg (initial monthly ar : ℝ) (k : ℤ) (hk : initial = (k : ℝ) / 100)
    (h0 : 0 ≤ initial) (hm : 0 ≤ monthly) (hr : 0 ≤ ar) :
    ∀ t, (∃ j : ℤ, projVals initial monthly ar t = (j : ℝ) / 100) ∧
      0 ≤ projVals initial monthly ar t := by
  intro t
  induction t with
  | zero => exact ⟨⟨k, hk⟩, h0⟩
  | succ t ih =>
      obtain ⟨⟨j, hj⟩, hpos⟩ := ih
      have hstep : projVals initial monthly ar (t + 1) =
          round2 (projVals initial monthly ar t * (1 + monthlyRate ar) + monthly) := rfl
      have hrr := monthlyRate_nonneg hr
      have harg : 0 ≤ projVals initial monthly ar t * (1 + monthlyRate ar) + monthly := by
        have := mul_nonneg hpos (by linarith : (0 : ℝ) ≤ 1 + monthlyRate ar)
        linarith
      constructor
      · exact ⟨round ((projVals initial monthly ar t * (1 + monthlyRate ar) + monthly) * 100),
          hstep⟩
      · rw [hstep]
        have := round2_mono harg
        rw [round2_zero] at this
        exact this

lemma projVals_mono (initial monthly ar : ℝ) (k : ℤ) (hk : initial = (k : ℝ) / 100)
    (h0 : 0 ≤ initial) (hm : 0 ≤ monthly) (hr : 0 ≤ ar) :
    ∀ t, projVals initial monthly ar t ≤ projVals initial monthly ar (t + 1) := by
  intro t
  obtain ⟨⟨j, hj⟩, hpos⟩ := projVals_grid_nonneg initial monthly ar k hk h0 hm hr t
  have hrr := monthlyRate_nonneg hr
  have hle : projVals initial monthly ar t ≤
      projVals initial monthly ar t * (1 + monthlyRate ar) + monthly := by
    have h1 : projVals initial monthly ar t * 1 ≤
        projVals initial monthly ar t * (1 + monthlyRate ar) :=
      mul_le_mul_of_nonneg_left (by linarith) hpos
    linarith [h1]
  have hstep : projVals initial monthly ar (t + 1) =
      round2 (projVals initial monthly ar t * (1 + monthlyRate ar) + monthly) := rfl
  calc projVals initial monthly ar t
      = round2 (projVals initial monthly ar t) := by rw [hj, round2_intCast_div]
    _ ≤ round2 (projVals initial monthly ar t * (1 + monthlyRate ar) + monthly) :=
        round2_mono hle
    _ = projVals initial monthly ar (t + 1) := hstep.symm

/-- C5 (amended): the projection series is monotonically non-decreasing when
`monthlyContribution ≥ 0` and `annualReturnPct ≥ 0`, provided additionally the
initial value is non-negative and is an exact 2-decimal currency amount
(an integer number of cents), so that the per-step rounding cannot round the
initial value down below itself. -/
theorem c5_projection_monotone (initial monthly ar : ℝ) (years : ℕ) (k : ℤ)
    (hk : initial = (k : ℝ) / 100) (h0 : 0 ≤ initial) (hm : 0 ≤ monthly) (hr : 0 ≤ ar) :
    (compute_projection initial monthly ar years).Chain' (fun a b => a ≤ b) := by
  unfold compute_projection
  rw [List.chain'_map, List.chain'_range_succ]
  intro m _
  exact projVals_mono initial monthly ar k hk h0 hm hr m

/-- Witness for C5's amended theorem: initial 100 (= 10000 cents), monthly
contribution 600, annual return 0, horizon 1 year. -/
theorem c5_witness :
    (100 : ℝ) = ((10000 : ℤ) : ℝ) / 100 ∧
    (compute_projection 100 600 0 1).Chain' (fun a b => a ≤ b) :=
  ⟨by norm_num,
   c5_projection_monotone 100 600 0 1 10000 (by norm_num) (by norm_num) (by norm_num)
     (by norm_num)⟩

/-- C5 counterexample: with initial 0.014, monthly contribution 0 and annual
return 0 (both non-negative, as the claim requires), element 1 of the
projection series is `round2 0.014 = 0.01 < 0.014`, element 0 — the series
decreases at the first step, refuting unconditional monotonicity. -/
theorem c5_counterexample :
    (compute_projection (7 / 500) 0 0 1)[0]? = some (7 / 500) ∧
    (compute_projection (7 / 500) 0 0 1)[1]? = some (1 / 100) ∧
    ((1 : ℝ) / 100) < 7 / 500 := by
  refine ⟨?_, ?_, by norm_num⟩
  · unfold compute_projection
    rw [List.getElem?_map, List.getElem?_range (by norm_num : 0 < 1 * 12 + 1)]
    rfl
  · unfold compute_projection
    rw [List.getElem?_map, List.getElem?_range (by norm_num : 1 < 1 * 12 + 1)]
    show some (projVals (7 / 500) 0 0 1) = _
    have : projVals (7 / 500) 0 0 1 = round2 (7 / 500 * (1 + monthlyRate 0) + 0) := rfl
    rw [this, monthlyRate_zero,
      show (7 / 500 * (1 + 0) + 0 : ℝ) = 7 / 500 by norm_num,
      round2_concrete (7 / 500) 1 (by norm_num) (by norm_num)]
    norm_num

lemma mcValue_congr (initial monthly : ℝ) (ret ret' : ℕ → ℕ → ℝ)
    (h : ∀ i j, ret i j = ret' i j) (i : ℕ) :
    ∀ t, mcValue initial monthly ret i t = mcValue initial monthly ret' i t := by
  intro t
  induction t with
  | zero => rfl
  | succ t ih =>
      show max (mcValue initial monthly ret i t * (1 + ret i t) + monthly) 0 = _
      rw [ih, h i t]
      rfl

lemma mcScenarios_congr (D1 D2 : ℕ → ℕ → ℝ) (initial monthly ar av : ℝ)
    (years sims seed : ℕ) (h : ∀ k, D1 seed k = D2 seed k) :
    mcScenarios D1 initial monthly ar av years sims seed =
      mcScenarios D2 initial monthly ar av years sims seed := by
  unfold mcScenarios
  refine List.map_congr_left fun i _ => ?_
  refine List.map_congr_left fun t _ => ?_
  exact mcValue_congr initial monthly _ _
    (fun i j => by unfold mcReturns; rw [h (i * (years * 12) + j)]) i t

/-- C4: `run_monte_carlo` is deterministic in its arguments: the result is a
pure function of the parameters and of the seed's draw stream alone — any two
runs whose streams agree on the given seed (in particular two runs with the
same seeded generator) return bit-identical ensembles and finalValues. -/
theorem c4_deterministic (D1 D2 : ℕ → ℕ → ℝ) (initial monthly ar av : ℝ)
    (years sims seed : ℕ) (h : ∀ k, D1 seed k = D2 seed k) :
    run_monte_carlo D1 initial monthly ar av years sims seed =
      run_monte_carlo D2 initial monthly ar av years sims seed := by
  have hs := mcScenarios_congr D1 D2 initial monthly ar av years sims seed h
  unfold run_monte_carlo
  rw [hs]

/-- Witness for C4 at two identical zero streams and concrete parameters. -/
theorem c4_witness :
    run_monte_carlo (fun _ _ => 0) 27050 600 7 14 25 1000 42 =
      run_monte_carlo (fun _ _ => 0) 27050 600 7 14 25 1000 42 :=
  c4_deterministic (fun _ _ => 0) (fun _ _ => 0) 27050 600 7 14 25 1000 42 fun _ => rfl

lemma mcValue_nonneg (initial monthly : ℝ) (ret : ℕ → ℕ → ℝ) (i : ℕ) (h : 0 ≤ initial) :
    ∀ t, 0 ≤ mcValue initial monthly ret i t := by
  intro t
  cases t with
  | zero => exact h
  | succ t => exact le_max_right _ 0

/-- C3 (amended): every value in the ensemble returned by `run_monte_carlo`
is non-negative, provided the initial value is non-negative; the `max(..., 0)`
floor guarantees this for months 1 and onward, but month 0 is set to `initial`
without flooring, so a negative initial value appears verbatim at month 0. -/
theorem c3_ensemble_floor (D : ℕ → ℕ → ℝ) (initial monthly ar av : ℝ)
    (years sims seed : ℕ) (h : 0 ≤ initial) :
    ∀ row ∈ (run_monte_carlo D initial monthly ar av years sims seed).scenarios,
      ∀ v ∈ row, 0 ≤ v := by
  intro row hrow v hv
  unfold run_monte_carlo mcScenarios at hrow
  simp only [List.mem_map, List.mem_range] at hrow
  obtain ⟨i, _, rfl⟩ := hrow
  simp only [List.mem_map, List.mem_range] at hv
  obtain ⟨t, _, rfl⟩ := hv
  exact mcValue_nonneg initial monthly _ i h t

/-- Witness for C3's amended theorem at initial 0: the month-0 entry of path 0
of a one-path, zero-year run is non-negative. -/
theorem c3_witness :
    0 ≤ mcValue 0 600 (mcReturns (fun _ _ => 0) 42 7 14 (0 * 12)) 0 0 :=
  c3_ensemble_floor (fun _ _ => 0) 0 600 7 14 0 1 42 (by norm_num)
    ((List.range (0 * 12 + 1)).map (mcValue 0 600 (mcReturns (fun _ _ => 0) 42 7 14 (0 * 12)) 0))
    (List.mem_map.2 ⟨0, by simp, rfl⟩)
    (mcValue 0 600 (mcReturns (fun _ _ => 0) 42 7 14 (0 * 12)) 0 0)
    (List.mem_map.2 ⟨0, by simp, rfl⟩)

/-- C3 counterexample: calling `run_monte_carlo` with initial -1 yields an
ensemble whose path 0 holds the value -1 < 0 at month index 0: the floor does
not apply to month 0, so the invariant fails for a negative initial value. -/
theorem c3_counterexample :
    ((run_monte_carlo (fun _ _ => 0) (-1) 600 7 14 25 1000 42).scenarios[0]?).bind
      (fun row => row[0]?) = some ((-1 : ℝ)) ∧ ((-1 : ℝ) < 0) := by
  refine ⟨?_, by norm_num⟩
  unfold run_monte_carlo mcScenarios
  rw [List.getElem?_map, List.getElem?_range (by norm_num : 0 < 1000)]
  show ((List.range (25 * 12 + 1)).map
      (mcValue (-1) 600 (mcReturns (fun _ _ => 0) 42 7 14 (25 * 12)) 0))[0]? = some ((-1 : ℝ))
  rw [List.getElem?_map, List.getElem?_range (by norm_num : 0 < 25 * 12 + 1)]
  rfl

/-- C2 (amended): `run_monte_carlo` performs no input validation and signals
no error: with `sims = 0` it silently returns an empty ensemble and an empty
finalValues array, and with `years = 0` (so `horizonYears*12 = 0`) it silently
returns a degenerate single-column ensemble equal to the initial value on
every path. -/
theorem c2_no_input_validation (D : ℕ → ℕ → ℝ) (initial monthly ar av : ℝ)
    (years sims seed : ℕ) :
    (run_monte_carlo D initial monthly ar av years 0 seed).scenarios = [] ∧
    (run_monte_carlo D initial monthly ar av years 0 seed).finals = [] ∧
    (run_monte_carlo D initial monthly ar av 0 sims seed).scenarios =
      List.replicate sims [initial] ∧
    (run_monte_carlo D initial monthly ar av 0 sims seed).finals =
      List.replicate sims initial := by
  have hrow : ∀ i : ℕ, (List.range (0 * 12 + 1)).map
      (mcValue initial monthly (mcReturns D seed ar av (0 * 12)) i) = [initial] := by
    intro i
    rfl
  refine ⟨rfl, rfl, ?_, ?_⟩
  · unfold run_monte_carlo mcScenarios
    rw [List.map_congr_left fun i _ => hrow i, List.map_const', List.length_range]
  · unfold run_monte_carlo mcScenarios
    rw [List.map_congr_left fun i _ => hrow i, List.map_const', List.length_range,
      List.map_replicate]
    rfl

/-- C2 counterexample: with pathCount 0 (and otherwise realistic parameters)
`run_monte_carlo` neither raises nor reports anything: it returns exactly the
silent empty result the specification forbids. -/
theorem c2_counterexample :
    (run_monte_carlo (fun _ _ => 0) 27050 600 7 14 25 0 42).finals = [] ∧
    (run_monte_carlo (fun _ _ => 0) 27050 600 7 14 25 0 42).scenarios = [] :=
  ⟨rfl, rfl⟩

/-- C10: entry `i` of the finalValues returned by `run_monte_carlo` is exactly
entry `years * 12` (the final month) of path `i` of the returned ensemble. -/
theorem c10_finals_last_column (D : ℕ → ℕ → ℝ) (initial monthly ar av : ℝ)
    (years sims seed i : ℕ) (hi : i < sims) :
    (run_monte_carlo D initial monthly ar av years sims seed).finals[i]? =
      ((run_monte_carlo D initial monthly ar av years sims seed).scenarios[i]?).bind
        (fun row => row[years * 12]?) := by
  unfold run_monte_carlo mcScenarios
  rw [List.getElem?_map, List.getElem?_map, List.getElem?_range hi]
  show some (((List.range (years * 12 + 1)).map
      (mcValue initial monthly (mcReturns D seed ar av (years * 12)) i)).getD
        (((List.range (years * 12 + 1)).map
          (mcValue initial monthly (mcReturns D seed ar av (years * 12)) i)).length - 1) 0) =
    ((List.range (years * 12 + 1)).map
      (mcValue initial monthly (mcReturns D seed ar av (years * 12)) i))[years * 12]?
  rw [List.length_map, List.length_range, Nat.add_sub_cancel, List.getD_eq_getElem?_getD,
    List.getElem?_map, List.getElem?_range (by omega : years * 12 < years * 12 + 1)]
  rfl

/-- Witness for C10 at path index 0 of a 1000-path run. -/
theorem c10_witness :
    (run_monte_carlo (fun _ _ => 0) 27050 600 7 14 25 1000 42).finals[0]? =
      ((run_monte_carlo (fun _ _ => 0) 27050 600 7 14 25 1000 42).scenarios[0]?).bind
        (fun row => row[25 * 12]?) :=
  c10_finals_last_column (fun _ _ => 0) 27050 600 7 14 25 1000 42 0 (by norm_num)

lemma monthlyRate_seven_lt : monthlyRate 7 < (7 : ℝ) / 100 / 12 := by
  have h0 : (0 : ℝ) ≤ 107 / 100 := by norm_num
  have h12 : (((107 : ℝ) / 100) ^ ((1 : ℝ) / 12)) ^ (12 : ℕ) = 107 / 100 := by
    rw [← Real.rpow_natCast (((107 : ℝ) / 100) ^ ((1 : ℝ) / 12)) 12, ← Real.rpow_mul h0,
      show ((1 : ℝ) / 12) * ((12 : ℕ) : ℝ) = 1 by push_cast; norm_num, Real.rpow_one]
  have key : ((107 : ℝ) / 100) ^ ((1 : ℝ) / 12) < 1207 / 1200 := by
    refine lt_of_pow_lt_pow_left₀ 12 (by norm_num) ?_
    rw [h12]
    norm_num
  unfold monthlyRate
  rw [show (1 : ℝ) + 7 / 100 = 107 / 100 by norm_num]
  linarith

/-- C6: every (path, month) return cell used by `run_monte_carlo` is a draw
from the normal distribution with mean `annualReturnPct/100/12` (simple
division) and standard deviation `annualVolatilityPct/100/sqrt(12)`, modelled
as that affine transform of the seed's standard-normal stream; moreover the
simple-division mean is genuinely distinct from (strictly below, at the
default 7% return) the geometric monthly rate the Projection Engine uses, so
the documented asymmetry is present in the code. -/
theorem c6_return_distribution_params (D : ℕ → ℕ → ℝ) (seed n i j : ℕ) (ar av : ℝ) :
    mcReturns D seed ar av n i j =
      ar / 100 / 12 + av / 100 / Real.sqrt 12 * D seed (i * n + j) ∧
    monthlyRate 7 < (7 : ℝ) / 100 / 12 :=
  ⟨rfl, monthlyRate_seven_lt⟩

lemma category_total_cons (a : Account) (l : List Account) (t : String) :
    category_total (a :: l) t = (if a.tipo = t then a.saldo else 0) + category_total l t := by
  unfold category_total
  by_cases hc : a.tipo = t
  · simp [List.filter_cons, hc]
  · simp [List.filter_cons, hc]

/-- C7: for every account set whose entries carry a non-negative balance and
a category among the four (Liquidità/Liquidity, Investimento/Investment,
Risparmio/Savings, TFR/SeverancePay), the net worth equals exactly the sum of
the four disjoint category totals. -/
theorem c7_networth_partition (accounts : List Account)
    (h : ∀ a ∈ accounts, 0 ≤ a.saldo ∧
      a.tipo ∈ ["Liquidità", "Investimento", "Risparmio", "TFR"]) :
    net_worth accounts =
      liquidita accounts + investimenti accounts + risparmio accounts + tfr accounts := by
  unfold liquidita investimenti risparmio tfr
  induction accounts with
  | nil => simp [net_worth, category_total]
  | cons a l ih =>
      have ha := (h a (List.mem_cons_self a l)).2
      have ih2 := ih fun b hb => h b (List.mem_cons_of_mem a hb)
      have hnw : net_worth (a :: l) = a.saldo + net_worth l := by
        unfold net_worth
        simp
      rw [hnw, category_total_cons, category_total_cons, category_total_cons,
        category_total_cons, ih2]
      simp only [List.mem_cons, List.not_mem_nil, or_false] at ha
      rcases ha with h1 | h1 | h1 | h1 <;> rw [h1] <;> simp <;> ring

/-- Witness for C7 on the repository's static `patrimonio` account set. -/
theorem c7_witness :
    (∀ a ∈ patrimonio, 0 ≤ a.saldo ∧
      a.tipo ∈ ["Liquidità", "Investimento", "Risparmio", "TFR"]) ∧
    net_worth patrimonio =
      liquidita patrimonio + investimenti patrimonio + risparmio patrimonio + tfr patrimonio :=
  ⟨by decide, c7_networth_partition patrimonio (by decide)⟩

/-- C9: the milestone progress percentage is totally defined and guarded:
when the target is ≤ 0 it is 0 (no division is attempted), and when the
target is positive it equals `min(netWorth / target * 100, 100)`. -/
theorem c9_milestone_pct_guard (nw target : ℝ) :
    (target ≤ 0 → milestone_pct nw target = 0) ∧
    (0 < target → milestone_pct nw target = min (nw / target * 100) 100) := by
  constructor
  · intro h
    unfold milestone_pct
    rw [if_neg (not_lt.2 h)]
  · intro h
    unfold milestone_pct
    rw [if_pos h]

/-- Witness for C9 at target 0 (degenerate) and at the €50k milestone. -/
theorem c9_witness :
    milestone_pct 27650 0 = 0 ∧
    milestone_pct 27650 50000 = min ((27650 : ℝ) / 50000 * 100) 100 :=
  ⟨(c9_milestone_pct_guard 27650 0).1 le_rfl,
   (c9_milestone_pct_guard 27650 50000).2 (by norm_num)⟩
